import Mathlib

/-!
Verification of the hdoc indexing/merge-engine specification against the
repository. The repository fragment contains the `Frontend` configuration
loader (`src/frontend/Frontend.cpp`) and a test helper
(`tests/index-tests/common.cpp`); the merge engine, concurrency coordinator
and compilation plan are specified (spec §3–§5) but their code is not in the
fragment, so they are modelled from the spec's words. The `Frontend`
constructor is embedded directly from `Frontend.cpp`.
-/

namespace Hdoc

/-- Modelled from the spec: §3 `SymbolObservation.sourceLocation` — a
(file, line, column) triple. -/
structure SourceLocation where
  file : String
  line : Nat
  column : Nat
deriving DecidableEq, Repr

/-- Modelled from the spec: §3 `SymbolObservation` — one extracted fact about
a symbol from one translation unit. Only the fields the merge policy of §4.3
reads are modelled: the identity key, definition status, source location,
documentation comment (empty string = no comment) and the kind-specific
structurally-additive payload, which §4.3 merges as a union keyed by name and
is therefore modelled as a finite set of names. -/
structure SymbolObservation where
  identityKey : String
  isDefinition : Bool
  sourceLocation : SourceLocation
  documentationComment : String
  payload : Finset String
deriving DecidableEq

/-- Modelled from the spec: §3 `Entry` — the canonical merged record for one
identity key. `hasDefinition` records whether a definition has been seen
(so that `bestLocation` is "the location of the definition if one has been
seen, else the earliest-seen declaration location"), and
`commentFromDefinition` records whether the stored comment was attached to a
definition (needed for the §4.3 comment tie-break); it is `false` whenever
the stored comment is empty. -/
structure Entry where
  identityKey : String
  bestLocation : SourceLocation
  hasDefinition : Bool
  documentationComment : String
  commentFromDefinition : Bool
  payload : Finset String
deriving DecidableEq

/-- Modelled from the spec: §4.3 — the `Entry` inserted when an identity key
is first observed, "initialized from the observation". -/
def newEntry (o : SymbolObservation) : Entry :=
  { identityKey := o.identityKey
    bestLocation := o.sourceLocation
    hasDefinition := o.isDefinition
    documentationComment := o.documentationComment
    commentFromDefinition :=
      if o.documentationComment = "" then false else o.isDefinition
    payload := o.payload }

/-- Modelled from the spec: §4.3 — the field-by-field update of an existing
`Entry` by a new observation of the same key. `bestLocation` prefers a
definition location over a declaration-only one and otherwise keeps the
first seen; `documentationComment` prefers a non-empty comment over an empty
one, between two non-empty comments prefers the one attached to a
definition, and otherwise keeps the first seen; the payload is unioned. -/
def updateEntry (e : Entry) (o : SymbolObservation) : Entry :=
  { identityKey := e.identityKey
    bestLocation :=
      if o.isDefinition = true ∧ e.hasDefinition = false then o.sourceLocation
      else e.bestLocation
    hasDefinition := e.hasDefinition || o.isDefinition
    documentationComment :=
      if e.documentationComment = "" ∧ o.documentationComment ≠ "" then
        o.documentationComment
      else if e.documentationComment ≠ "" ∧ o.documentationComment ≠ "" ∧
          e.commentFromDefinition = false ∧ o.isDefinition = true then
        o.documentationComment
      else e.documentationComment
    commentFromDefinition :=
      if e.documentationComment = "" ∧ o.documentationComment ≠ "" then
        o.isDefinition
      else if e.documentationComment ≠ "" ∧ o.documentationComment ≠ "" ∧
          e.commentFromDefinition = false ∧ o.isDefinition = true then
        true
      else e.commentFromDefinition
    payload := e.payload ∪ o.payload }

/-- One identity-keyed table of the `Index` (§3): an association list from
`IdentityKey` to `Entry`. -/
abbrev SymbolTable := List (String × Entry)

/-- Look up the `Entry` stored for a key, if any (first occurrence). -/
def lookupEntry (t : SymbolTable) (k : String) : Option Entry :=
  match t with
  | [] => none
  | (k0, e) :: rest => if k0 = k then some e else lookupEntry rest k

/-- Modelled from the spec: §4.3 `mergeObservation(table, observation)` —
look up the observation's identity key; if absent insert `newEntry`,
if present update the existing entry in place. -/
def mergeObservation (t : SymbolTable) (o : SymbolObservation) : SymbolTable :=
  match t with
  | [] => [(o.identityKey, newEntry o)]
  | (k0, e) :: rest =>
    if k0 = o.identityKey then (k0, updateEntry e o) :: rest
    else (k0, e) :: mergeObservation rest o

/-- The keys currently present in a table. -/
def tableKeys (t : SymbolTable) : List String := t.map Prod.fst

/-- The §4.3 comment-preference rank of an observation: a non-empty comment
attached to a definition outranks a non-empty comment attached to a
declaration, which outranks an empty comment. -/
def commentPriority (o : SymbolObservation) : Nat :=
  if o.documentationComment = "" then 0
  else if o.isDefinition then 2 else 1

/-- The effect of one merge on the entry stored under the observation's own
key: insert `newEntry` when the key was absent, update in place when
present (the per-key view of `mergeObservation`). -/
def mergeEntryStep (acc : Option Entry) (o : SymbolObservation) : Option Entry :=
  match acc with
  | none => some (newEntry o)
  | some e => some (updateEntry e o)

/-- Modelled from the spec: §4.1/§6 — one work item of the compilation plan:
a (file path, final argument list) pair. -/
structure WorkItem where
  path : String
  args : List String
deriving DecidableEq

/-- Modelled from the spec: §6 — the external Observation Source: for a work
item it yields either a finite sequence of observations or a failure signal
(`none`). -/
abbrev ObservationSource := WorkItem → Option (List SymbolObservation)

/-- Modelled from the spec: §4.4 — processing of one work item by a worker:
on a front-end failure the failure is logged and the file is skipped (the
table is unchanged); on success every produced observation is merged. The
item is processed exactly once — there is no retry within a run. -/
def runWorkItem (source : ObservationSource) (t : SymbolTable) (item : WorkItem) :
    SymbolTable :=
  match source item with
  | none => t
  | some obs => obs.foldl mergeObservation t

/-- Modelled from the spec: §4.4/§7 — a whole indexing run over the work-item
sequence, starting from the empty table; the second component reports overall
failure, which happens exactly when every work item fails. -/
def runIndex (source : ObservationSource) (items : List WorkItem) :
    SymbolTable × Bool :=
  (items.foldl (runWorkItem source) [], items.all fun i => (source i).isNone)

/-- Whether one string occurs inside another (used for the ignore-path
substring test of §4.1 and the include-list markers of `Frontend.cpp`). -/
def containsStr (s pat : String) : Bool := decide (pat.data <:+: s.data)

/-- Modelled from the spec: §4.1 — the Compilation Plan: drop manifest
entries whose file does not exist or whose path matches an ignore substring,
apply include-path argument augmentation, and truncate to the debug limit
when one is configured (`0` = unlimited). -/
def buildCompilationPlan (manifest : List WorkItem) (fileOk : String → Bool)
    (ignorePaths : List String) (includeArgs : List String) (limit : Nat) :
    List WorkItem :=
  let kept := manifest.filter fun e =>
    fileOk e.path && !(ignorePaths.any fun p => containsStr e.path p)
  let augmented := kept.map fun e => { e with args := e.args ++ includeArgs }
  if limit = 0 then augmented else augmented.take limit

/-- From `Frontend.cpp`: `hdoc::types::BinaryType`, read by the `output_dir`
check (lines 86–95). -/
inductive BinaryType
  | Full
  | Client
deriving DecidableEq

/-- From `Frontend.cpp` lines 111–129: the state of the
`toml["project"]["num_threads"]` node — absent, present with a non-integer
type, or an integer value. -/
inductive NumThreadsField
  | absent
  | notInteger
  | integer (value : Int)
deriving DecidableEq

/-- From `Frontend.cpp`: the fields read out of the parsed `.hdoc.toml`
table. A `value_or("")` read is a plain `String`; optional nodes are
`Option`s; array reads are the element lists after element-level
`value_or("")`; `debugLimit = none` models an absent (or non-integer)
`debug.limit_num_indexed_files` node, which `value_or(0)` defaults to 0. -/
structure TomlData where
  compileCommands : String
  outputDir : Option String
  projectName : String
  projectVersion : String
  gitRepoURL : String
  numThreads : NumThreadsField
  useSystemIncludes : Bool
  includePathsToml : List String
  ignorePathsToml : List String
  ignorePrivateMembers : Option Bool
  ignorePlainComments : Option Bool
  homepage : String
  mdPathsToml : List String
  debugLimit : Option Int
deriving DecidableEq

/-- From `Frontend.cpp` lines 131–191: the outcomes of the system-include
discovery steps (temporary file creation, `c++` lookup, compiler
invocation, output read) and the captured compiler output lines. -/
structure SysIncludeEnv where
  tempFileOk : Bool
  compilerFound : Bool
  execOk : Bool
  readOk : Bool
  compilerOutput : List String
deriving DecidableEq

/-- The environment the `Frontend` constructor observes: CLI parse outcome,
`--oss` flag, current path, presence of `.hdoc.toml`, the TOML parse result,
the `is_regular_file` predicate for `compile_commands`, the system-include
discovery environment, the markdown-file existence predicate and the clock. -/
structure FrontendEnv where
  cliParseOk : Bool
  ossFlag : Bool
  currentPath : String
  hdocTomlExists : Bool
  tomlParse : Option TomlData
  compileCommandsIsFile : String → Bool
  sys : SysIncludeEnv
  mdFileExists : String → Bool
  timestamp : String

/-- From `types/Config` as used by `Frontend.cpp`: the configuration record
the constructor fills in. `binaryType` is set by the caller before the
constructor runs; `initialized` starts `false` and is set only by the
constructor's final step. -/
structure Config where
  hdocVersion : String
  rootDir : String
  compileCommandsJSON : String
  outputDir : String
  projectName : String
  projectVersion : String
  gitRepoURL : String
  numThreads : Int
  useSystemIncludes : Bool
  includePaths : List String
  ignorePaths : List String
  ignorePrivateMembers : Bool
  ignorePlainComments : Bool
  homepage : String
  mdPaths : List String
  debugLimitNumIndexedFiles : Int
  timestamp : String
  binaryType : BinaryType
  initialized : Bool
deriving DecidableEq

/-- The build-time `HDOC_VERSION` constant. -/
def hdocVersionString : String := "1.2.1"

/-- `s.back() == '/'` of `Frontend.cpp` line 106 (guarded there by
`s != ""`). -/
def lastCharIsSlash (s : String) : Bool :=
  match s.data.getLast? with
  | some c => c == '/'
  | none => false

/-- From `Frontend.cpp` lines 172–190: the scan over the compiler's output
lines — start collecting after the `#include ... search starts here:` line,
collect lines starting with a space (trimmed), stop at
`End of search list.`. -/
def extractIncludePathsGo : Bool → List String → List String
  | _, [] => []
  | found, line :: rest =>
    let found2 := found ||
      (containsStr line "#include" && containsStr line "search starts here:")
    let here := if found2 && line.startsWith " " then [line.trim] else []
    if containsStr line "End of search list." then here
    else here ++ extractIncludePathsGo found2 rest

/-- The include paths extracted from the compiler's `-Wp,-v` output
(`Frontend.cpp` lines 168–190). -/
def extractIncludePaths (lines : List String) : List String :=
  extractIncludePathsGo false lines

/-- From `Frontend.cpp` lines 193–271: the tail of the constructor after the
system-include block — TOML include paths, ignore paths, optional ignore
flags, markdown pages, the `debug.limit_num_indexed_files` read
(`value_or(0)`, line 247), the timestamp, and finally `initialized = true`
(line 255). This part has no error path. -/
def frontendFinish (env : FrontendEnv) (toml : TomlData) (cfg : Config) :
    Option Config :=
  let cfg := { cfg with
    includePaths := cfg.includePaths ++ toml.includePathsToml.filter (fun s => s != "") }
  let cfg := { cfg with
    ignorePaths := cfg.ignorePaths ++ toml.ignorePathsToml.filter (fun s => s != "") }
  let cfg := { cfg with
    ignorePrivateMembers := toml.ignorePrivateMembers.getD cfg.ignorePrivateMembers }
  let cfg := { cfg with
    ignorePlainComments := toml.ignorePlainComments.getD cfg.ignorePlainComments }
  let cfg := { cfg with
    homepage := toml.homepage
    mdPaths := cfg.mdPaths ++
      toml.mdPathsToml.filter (fun s => (s != "") && env.mdFileExists s) }
  let cfg := { cfg with debugLimitNumIndexedFiles := toml.debugLimit.getD 0 }
  let cfg := { cfg with timestamp := env.timestamp }
  some { cfg with initialized := true }

/-- From `Frontend.cpp` lines 131–191: `use_system_includes` handling. Each
discovery failure (temporary file, compiler lookup, compiler run, output
read) is an early `return` leaving the rest of the configuration unset; on
success the extracted include paths are appended. -/
def frontendSysIncludes (env : FrontendEnv) (toml : TomlData) (cfg : Config) :
    Option Config :=
  let cfg := { cfg with useSystemIncludes := toml.useSystemIncludes }
  if toml.useSystemIncludes = true then
    if env.sys.tempFileOk = false then some cfg
    else if env.sys.compilerFound = false then some cfg
    else if env.sys.execOk = false then some cfg
    else if env.sys.readOk = false then some cfg
    else
      frontendFinish env toml
        { cfg with
          includePaths := cfg.includePaths ++ extractIncludePaths env.sys.compilerOutput }
  else frontendFinish env toml cfg

/-- From `Frontend.cpp` lines 29–271: the constructor
`hdoc::frontend::Frontend::Frontend`, as a function from the observed
environment and the caller-provided `Config` to the final `Config`. Every
C++ early `return` is `some cfg` with the fields set so far; the `--oss`
branch calls `std::exit(0)` and is modelled as `none`. -/
def frontendRun (env : FrontendEnv) (cfg0 : Config) : Option Config :=
  let cfg := { cfg0 with hdocVersion := hdocVersionString }
  if env.cliParseOk = false then some cfg
  else if env.ossFlag = true then none
  else
    let cfg := { cfg with rootDir := env.currentPath }
    if env.hdocTomlExists = false then some cfg
    else
      match env.tomlParse with
      | none => some cfg
      | some toml =>
        let cfg := { cfg with compileCommandsJSON := toml.compileCommands }
        if env.compileCommandsIsFile toml.compileCommands = false then some cfg
        else if toml.outputDir = none ∧ cfg.binaryType = BinaryType.Full then some cfg
        else
          let cfg := { cfg with
            outputDir := toml.outputDir.getD ""
            projectName := toml.projectName
            projectVersion := toml.projectVersion
            gitRepoURL := toml.gitRepoURL }
          if toml.projectName = "" then some cfg
          else if toml.gitRepoURL ≠ "" ∧ lastCharIsSlash toml.gitRepoURL = false then
            some cfg
          else
            match toml.numThreads with
            | NumThreadsField.notInteger => some cfg
            | NumThreadsField.absent =>
              frontendSysIncludes env toml { cfg with numThreads := 0 }
            | NumThreadsField.integer v =>
              if v < 0 then some cfg
              else frontendSysIncludes env toml { cfg with numThreads := v }

/-- Whether the system-include discovery stage succeeds (or is disabled). -/
def sysChecksPass (env : FrontendEnv) (toml : TomlData) : Bool :=
  !toml.useSystemIncludes ||
    (env.sys.tempFileOk && env.sys.compilerFound && env.sys.execOk && env.sys.readOk)

/-- Whether the `num_threads` node passes the checks of lines 111–129:
absent is fine (default 0), a non-integer is an error, an integer must be
non-negative. -/
def numThreadsOk (f : NumThreadsField) : Bool :=
  match f with
  | NumThreadsField.absent => true
  | NumThreadsField.notInteger => false
  | NumThreadsField.integer v => decide (0 ≤ v)

/-- Whether every validation check of the constructor passes, in the order
the code performs them. -/
def frontendChecksPass (env : FrontendEnv) (cfg0 : Config) : Bool :=
  if env.cliParseOk = false then false
  else if env.hdocTomlExists = false then false
  else
    match env.tomlParse with
    | none => false
    | some toml =>
      if env.compileCommandsIsFile toml.compileCommands = false then false
      else if toml.outputDir = none ∧ cfg0.binaryType = BinaryType.Full then false
      else if toml.projectName = "" then false
      else if toml.gitRepoURL ≠ "" ∧ lastCharIsSlash toml.gitRepoURL = false then false
      else if numThreadsOk toml.numThreads = false then false
      else sysChecksPass env toml

/-- `frontendChecksPass` with the git-repo-URL check removed (used to state
that an empty `git_repo_url` is accepted: the remaining checks alone decide
the outcome). -/
def frontendOtherChecksPass (env : FrontendEnv) (cfg0 : Config) : Bool :=
  if env.cliParseOk = false then false
  else if env.hdocTomlExists = false then false
  else
    match env.tomlParse with
    | none => false
    | some toml =>
      if env.compileCommandsIsFile toml.compileCommands = false then false
      else if toml.outputDir = none ∧ cfg0.binaryType = BinaryType.Full then false
      else if toml.projectName = "" then false
      else if numThreadsOk toml.numThreads = false then false
      else sysChecksPass env toml

/-- Two declaration-only observations of the same entity at different
locations: the first-seen tie-break makes their merge order-dependent. -/
def cexObsDeclOne : SymbolObservation :=
  { identityKey := "foo()", isDefinition := false,
    sourceLocation := { file := "a.h", line := 1, column := 1 },
    documentationComment := "", payload := ∅ }

/-- The second declaration-only observation of the counterexample pair. -/
def cexObsDeclTwo : SymbolObservation :=
  { identityKey := "foo()", isDefinition := false,
    sourceLocation := { file := "b.h", line := 2, column := 1 },
    documentationComment := "", payload := ∅ }

/-- Sample definition observation (commutativity witness). -/
def c1DefObs : SymbolObservation :=
  { identityKey := "foo()", isDefinition := true,
    sourceLocation := { file := "foo.cpp", line := 10, column := 1 },
    documentationComment := "does foo", payload := ∅ }

/-- Sample declaration observation (commutativity witness). -/
def c1DeclObs : SymbolObservation :=
  { identityKey := "foo()", isDefinition := false,
    sourceLocation := { file := "foo.h", line := 2, column := 1 },
    documentationComment := "", payload := ∅ }

/-- Sample observation of a second, distinct entity (commutativity
witness). -/
def c1OtherObs : SymbolObservation :=
  { identityKey := "other()", isDefinition := true,
    sourceLocation := { file := "o.cpp", line := 1, column := 1 },
    documentationComment := "", payload := ∅ }

/-- Sample definition observation (definition-precedence witness). -/
def c3DefObs : SymbolObservation :=
  { identityKey := "bar()", isDefinition := true,
    sourceLocation := { file := "bar.cpp", line := 20, column := 1 },
    documentationComment := "", payload := ∅ }

/-- Sample declaration observation (definition-precedence witness). -/
def c3DeclObs : SymbolObservation :=
  { identityKey := "bar()", isDefinition := false,
    sourceLocation := { file := "bar.h", line := 3, column := 1 },
    documentationComment := "", payload := ∅ }

/-- Sample observation with an empty comment (comment-precedence witness). -/
def c4EmptyObs : SymbolObservation :=
  { identityKey := "baz()", isDefinition := false,
    sourceLocation := { file := "baz.h", line := 4, column := 1 },
    documentationComment := "", payload := ∅ }

/-- Sample observation with a non-empty comment (comment-precedence
witness). -/
def c4DocObs : SymbolObservation :=
  { identityKey := "baz()", isDefinition := false,
    sourceLocation := { file := "baz2.h", line := 5, column := 1 },
    documentationComment := "does baz", payload := ∅ }

/-- Sample definition with a comment (comment-precedence witness, part 2). -/
def c4DefDocObs : SymbolObservation :=
  { identityKey := "qux()", isDefinition := true,
    sourceLocation := { file := "qux.cpp", line := 6, column := 1 },
    documentationComment := "from def", payload := ∅ }

/-- Sample declaration with a comment (comment-precedence witness,
part 2). -/
def c4DeclDocObs : SymbolObservation :=
  { identityKey := "qux()", isDefinition := false,
    sourceLocation := { file := "qux.h", line := 7, column := 1 },
    documentationComment := "from decl", payload := ∅ }

/-- Sample observation (table-invariant witness). -/
def c5Obs : SymbolObservation :=
  { identityKey := "ns::C", isDefinition := true,
    sourceLocation := { file := "c.h", line := 8, column := 1 },
    documentationComment := "", payload := {"m1"} }

/-- Sample merged observation (partial-failure witness). -/
def c6Obs : SymbolObservation :=
  { identityKey := "foo()", isDefinition := true,
    sourceLocation := { file := "a.h", line := 3, column := 1 },
    documentationComment := "doc", payload := ∅ }

/-- First work item of the partial-failure witness run. -/
def c6Item1 : WorkItem := { path := "a.cpp", args := [] }

/-- Second work item (the one that fails to parse). -/
def c6Item2 : WorkItem := { path := "b.cpp", args := [] }

/-- Third work item of the partial-failure witness run. -/
def c6Item3 : WorkItem := { path := "c.cpp", args := [] }

/-- The three work items of the partial-failure witness run. -/
def c6Items : List WorkItem := [c6Item1, c6Item2, c6Item3]

/-- An observation source that fails on `b.cpp` and succeeds elsewhere. -/
def c6Source : ObservationSource :=
  fun i => if i.path = "b.cpp" then none else some [c6Obs]

/-- A baseline valid parsed `.hdoc.toml`. -/
def sampleToml : TomlData :=
  { compileCommands := "compile_commands.json", outputDir := some "docs",
    projectName := "widget", projectVersion := "1.0", gitRepoURL := "",
    numThreads := NumThreadsField.absent, useSystemIncludes := false,
    includePathsToml := [], ignorePathsToml := [], ignorePrivateMembers := none,
    ignorePlainComments := none, homepage := "", mdPathsToml := [],
    debugLimit := none }

/-- A baseline environment in which every check passes for a given TOML. -/
def sampleEnv (toml : TomlData) : FrontendEnv :=
  { cliParseOk := true, ossFlag := false, currentPath := "/proj",
    hdocTomlExists := true, tomlParse := some toml,
    compileCommandsIsFile := fun _ => true,
    sys := { tempFileOk := true, compilerFound := true, execOk := true,
             readOk := true, compilerOutput := [] },
    mdFileExists := fun _ => false, timestamp := "2022-01-01T00:00:00 UTC" }

/-- The default-constructed `Config` a caller passes to the constructor. -/
def sampleConfig : Config :=
  { hdocVersion := "", rootDir := "", compileCommandsJSON := "", outputDir := "",
    projectName := "", projectVersion := "", gitRepoURL := "", numThreads := 0,
    useSystemIncludes := true, includePaths := [], ignorePaths := [],
    ignorePrivateMembers := false, ignorePlainComments := false, homepage := "",
    mdPaths := [], debugLimitNumIndexedFiles := 0, timestamp := "",
    binaryType := BinaryType.Full, initialized := false }

/-- TOML with `num_threads = 4` (worker-count witness). -/
def c7Toml : TomlData := { sampleToml with numThreads := NumThreadsField.integer 4 }

/-- Environment for the worker-count witness. -/
def c7Env : FrontendEnv := sampleEnv c7Toml

/-- The configuration the constructor produces in the worker-count witness
run. -/
def c7Res : Config := (frontendRun c7Env sampleConfig).getD sampleConfig

/-- The configuration the constructor produces in the all-checks-pass
witness run. -/
def c9Res : Config := (frontendRun (sampleEnv sampleToml) sampleConfig).getD sampleConfig

/-- TOML whose `git_repo_url` misses the mandatory trailing slash. -/
def c10Toml : TomlData := { sampleToml with gitRepoURL := "https://github.com/x/y" }

/-- Environment for the git-URL witness. -/
def c10Env : FrontendEnv := sampleEnv c10Toml

/-- The configuration the constructor produces in the git-URL witness run. -/
def c10Res : Config := (frontendRun c10Env sampleConfig).getD sampleConfig

/-- A three-entry manifest (debug-limit witness). -/
def c8Manifest : List WorkItem :=
  [{ path := "a.cpp", args := [] }, { path := "b.cpp", args := [] },
   { path := "c.cpp", args := [] }]

end Hdoc

namespace Hdoc

/-- A second application of `updateEntry` with the same observation changes
nothing: every field rule keeps an already-as-good value. -/
theorem updateEntry_idem (e : Entry) (o : SymbolObservation) :
    updateEntry (updateEntry e o) o = updateEntry e o := by
  cases hd : o.isDefinition <;> cases hh : e.hasDefinition <;>
    cases hf : e.commentFromDefinition <;>
      by_cases h1 : e.documentationComment = "" <;>
        by_cases h2 : o.documentationComment = "" <;>
          simp_all [updateEntry, Finset.union_assoc]

/-- Updating a freshly inserted entry with the observation that created it
changes nothing. -/
theorem updateEntry_newEntry_self (o : SymbolObservation) :
    updateEntry (newEntry o) o = newEntry o := by
  cases hd : o.isDefinition <;>
    by_cases h2 : o.documentationComment = "" <;>
      simp_all [updateEntry, newEntry]

/-- Merging two observations of the same key into a fresh entry is
order-independent when neither the location tie-break nor the comment
tie-break has to choose between differing values. -/
theorem updateEntry_newEntry_comm_full (A B : SymbolObservation)
    (hk : A.identityKey = B.identityKey)
    (hloc : A.isDefinition = B.isDefinition → A.sourceLocation = B.sourceLocation)
    (hcmt : commentPriority A = commentPriority B →
      A.documentationComment = B.documentationComment) :
    updateEntry (newEntry A) B = updateEntry (newEntry B) A := by
  cases hA : A.isDefinition <;> cases hB : B.isDefinition <;>
    by_cases h1 : A.documentationComment = "" <;>
      by_cases h2 : B.documentationComment = "" <;>
        simp_all [updateEntry, newEntry, commentPriority, Finset.union_comm]

/-- `tableKeys` of the empty table. -/
theorem tableKeys_nil : tableKeys [] = [] := rfl

/-- `tableKeys` of a cons cell. -/
theorem tableKeys_cons (k : String) (e : Entry) (t : SymbolTable) :
    tableKeys ((k, e) :: t) = k :: tableKeys t := rfl

/-- A merge either leaves the key list unchanged (key present: in-place
update) or appends exactly the new key (key absent: insertion). -/
theorem tableKeys_mergeObservation (t : SymbolTable) (o : SymbolObservation) :
    tableKeys (mergeObservation t o) =
      if o.identityKey ∈ tableKeys t then tableKeys t
      else tableKeys t ++ [o.identityKey] := by
  induction t with
  | nil => simp [mergeObservation, tableKeys_nil, tableKeys_cons]
  | cons p rest ih =>
    obtain ⟨k0, e⟩ := p
    by_cases hk : k0 = o.identityKey
    · simp [mergeObservation, hk, tableKeys_cons]
    · simp only [mergeObservation, if_neg hk, tableKeys_cons, ih]
      by_cases hm : o.identityKey ∈ tableKeys rest
      · simp [hm, Ne.symm hk]
      · simp [hm, Ne.symm hk]

/-- A lookup succeeds exactly when the key is present in the table. -/
theorem lookupEntry_isSome_iff (t : SymbolTable) (k : String) :
    (lookupEntry t k).isSome = true ↔ k ∈ tableKeys t := by
  induction t with
  | nil => simp [lookupEntry, tableKeys_nil]
  | cons p rest ih =>
    obtain ⟨k0, e⟩ := p
    by_cases hk : k0 = k
    · simp [lookupEntry, hk, tableKeys_cons]
    · simp [lookupEntry, hk, tableKeys_cons, ih, Ne.symm hk]

/-- Characterization of a merge through lookups: only the observation's own
key changes, per `mergeEntryStep`. -/
theorem lookupEntry_mergeObservation (t : SymbolTable) (o : SymbolObservation)
    (k : String) :
    lookupEntry (mergeObservation t o) k =
      if k = o.identityKey then mergeEntryStep (lookupEntry t k) o
      else lookupEntry t k := by
  induction t with
  | nil =>
    by_cases hk : k = o.identityKey <;>
      simp [mergeObservation, lookupEntry, mergeEntryStep, hk, eq_comm]
  | cons p rest ih =>
    obtain ⟨k0, e⟩ := p
    by_cases h0 : k0 = o.identityKey
    · subst h0
      by_cases hk : o.identityKey = k
      · subst hk
        simp [mergeObservation, lookupEntry, mergeEntryStep]
      · simp [mergeObservation, lookupEntry, hk, Ne.symm hk]
    · by_cases hk : k0 = k
      · subst hk
        simp [mergeObservation, lookupEntry, h0, Ne.symm h0]
      · simp [mergeObservation, lookupEntry, h0, hk, ih]

/-- The entry a fold of merges stores under a key depends only on the
subsequence of observations carrying that key. -/
theorem lookupEntry_foldl_mergeObservation (l : List SymbolObservation)
    (t : SymbolTable) (k : String) :
    lookupEntry (l.foldl mergeObservation t) k =
      (l.filter fun o => o.identityKey = k).foldl mergeEntryStep (lookupEntry t k) := by
  induction l generalizing t with
  | nil => simp
  | cons a l ih =>
    by_cases hk : a.identityKey = k
    · simp only [List.foldl_cons, ih, List.filter_cons, hk]
      rw [lookupEntry_mergeObservation, if_pos hk.symm]
      simp
    · simp only [List.foldl_cons, ih, List.filter_cons]
      rw [lookupEntry_mergeObservation, if_neg (fun h => hk h.symm)]
      simp [hk]

/-- Two updates of the same existing entry commute when neither tie-break
has to choose between differing values. -/
theorem updateEntry_updateEntry_comm (e : Entry) (A B : SymbolObservation)
    (hloc : A.isDefinition = B.isDefinition → A.sourceLocation = B.sourceLocation)
    (hcmt : commentPriority A = commentPriority B →
      A.documentationComment = B.documentationComment) :
    updateEntry (updateEntry e A) B = updateEntry (updateEntry e B) A := by
  cases hA : A.isDefinition <;> cases hB : B.isDefinition <;>
    cases hh : e.hasDefinition <;> cases hf : e.commentFromDefinition <;>
      by_cases h1 : A.documentationComment = "" <;>
        by_cases h2 : B.documentationComment = "" <;>
          by_cases h3 : e.documentationComment = "" <;>
            simp_all [updateEntry, commentPriority, Finset.union_comm,
              Finset.union_assoc, Finset.union_left_comm]

/-- The per-key merge step commutes on two same-key observations under the
no-tie provisos, from any starting entry state. -/
theorem mergeEntryStep_comm (acc : Option Entry) (A B : SymbolObservation)
    (hk : A.identityKey = B.identityKey)
    (hloc : A.isDefinition = B.isDefinition → A.sourceLocation = B.sourceLocation)
    (hcmt : commentPriority A = commentPriority B →
      A.documentationComment = B.documentationComment) :
    mergeEntryStep (mergeEntryStep acc A) B
      = mergeEntryStep (mergeEntryStep acc B) A := by
  cases acc with
  | none =>
    simp only [mergeEntryStep]
    exact congrArg some (updateEntry_newEntry_comm_full A B hk hloc hcmt)
  | some e =>
    simp only [mergeEntryStep]
    exact congrArg some (updateEntry_updateEntry_comm e A B hloc hcmt)

/-- Merging preserves key uniqueness of the table. -/
theorem nodup_tableKeys_mergeObservation (t : SymbolTable) (o : SymbolObservation)
    (h : (tableKeys t).Nodup) : (tableKeys (mergeObservation t o)).Nodup := by
  rw [tableKeys_mergeObservation]
  by_cases hm : o.identityKey ∈ tableKeys t
  · simpa [hm] using h
  · simp [hm, List.nodup_append, h]

/-- Merging never removes a key. -/
theorem mem_tableKeys_mergeObservation (t : SymbolTable) (o : SymbolObservation)
    (k : String) (h : k ∈ tableKeys t) : k ∈ tableKeys (mergeObservation t o) := by
  rw [tableKeys_mergeObservation]
  by_cases hm : o.identityKey ∈ tableKeys t <;> simp [hm, h]

/-- After merging an observation its key is present. -/
theorem self_mem_tableKeys_mergeObservation (t : SymbolTable) (o : SymbolObservation) :
    o.identityKey ∈ tableKeys (mergeObservation t o) := by
  rw [tableKeys_mergeObservation]
  by_cases hm : o.identityKey ∈ tableKeys t <;> simp [hm]

/-- A fold of merges never removes a key. -/
theorem mem_tableKeys_foldl_merge (l : List SymbolObservation) (t : SymbolTable)
    (k : String) (h : k ∈ tableKeys t) :
    k ∈ tableKeys (l.foldl mergeObservation t) := by
  induction l generalizing t with
  | nil => simpa using h
  | cons a l ih => exact ih _ (mem_tableKeys_mergeObservation t a k h)

/-- Folding merges keeps key uniqueness. -/
theorem nodup_tableKeys_foldl_merge (l : List SymbolObservation) (t : SymbolTable)
    (h : (tableKeys t).Nodup) : (tableKeys (l.foldl mergeObservation t)).Nodup := by
  induction l generalizing t with
  | nil => simpa using h
  | cons a l ih => exact ih _ (nodup_tableKeys_mergeObservation t a h)

/-- Every observation merged by a fold leaves its key in the table. -/
theorem obs_mem_tableKeys_foldl_merge (l : List SymbolObservation) (t : SymbolTable)
    (o : SymbolObservation) (h : o ∈ l) :
    o.identityKey ∈ tableKeys (l.foldl mergeObservation t) := by
  induction l generalizing t with
  | nil => simp at h
  | cons a l ih =>
    rcases List.mem_cons.mp h with rfl | h
    · exact mem_tableKeys_foldl_merge l _ _ (self_mem_tableKeys_mergeObservation t o)
    · exact ih _ h

/-- Processing a work item never removes a key. -/
theorem mem_tableKeys_runWorkItem (source : ObservationSource) (t : SymbolTable)
    (i : WorkItem) (k : String) (h : k ∈ tableKeys t) :
    k ∈ tableKeys (runWorkItem source t i) := by
  unfold runWorkItem
  cases source i with
  | none => exact h
  | some obs => exact mem_tableKeys_foldl_merge obs t k h

/-- Processing a sequence of work items never removes a key. -/
theorem mem_tableKeys_foldl_runWorkItem (source : ObservationSource)
    (items : List WorkItem) (t : SymbolTable) (k : String) (h : k ∈ tableKeys t) :
    k ∈ tableKeys (items.foldl (runWorkItem source) t) := by
  induction items generalizing t with
  | nil => simpa using h
  | cons a items ih => exact ih _ (mem_tableKeys_runWorkItem source t a k h)

/-- Every observation of a successful work item ends up keyed in the table
produced by the run, regardless of other items failing. -/
theorem retention_foldl_runWorkItem (source : ObservationSource)
    (items : List WorkItem) (t : SymbolTable) (i : WorkItem) (hi : i ∈ items)
    (l : List SymbolObservation) (hl : source i = some l)
    (o : SymbolObservation) (ho : o ∈ l) :
    o.identityKey ∈ tableKeys (items.foldl (runWorkItem source) t) := by
  induction items generalizing t with
  | nil => simp at hi
  | cons a items ih =>
    rcases List.mem_cons.mp hi with rfl | hi
    · refine mem_tableKeys_foldl_runWorkItem source items _ _ ?_
      unfold runWorkItem
      rw [hl]
      exact obs_mem_tableKeys_foldl_merge l t o ho
    · exact ih _ hi

end Hdoc

namespace Hdoc

/-- The tail of the constructor always ends with `initialized = true`. -/
theorem frontendFinish_initialized (env : FrontendEnv) (toml : TomlData)
    (cfg cfg' : Config) (h : frontendFinish env toml cfg = some cfg') :
    cfg'.initialized = true := by
  unfold frontendFinish at h
  obtain rfl := Option.some.inj h
  rfl

/-- The system-include stage initializes the configuration exactly when its
discovery steps all succeed (or the stage is disabled). -/
theorem frontendSysIncludes_initialized (env : FrontendEnv) (toml : TomlData)
    (cfg cfg' : Config) (h : frontendSysIncludes env toml cfg = some cfg') :
    cfg'.initialized = (cfg.initialized || sysChecksPass env toml) := by
  unfold frontendSysIncludes at h
  split_ifs at h with h1 h2 h3 h4 h5
  · obtain rfl := Option.some.inj h
    simp [sysChecksPass, h1, h2]
  · obtain rfl := Option.some.inj h
    simp [sysChecksPass, h1, h2, h3]
  · obtain rfl := Option.some.inj h
    simp [sysChecksPass, h1, h2, h3, h4]
  · obtain rfl := Option.some.inj h
    simp [sysChecksPass, h1, h2, h3, h4, h5]
  · rw [frontendFinish_initialized env toml _ cfg' h]
    simp_all [sysChecksPass]
  · rw [frontendFinish_initialized env toml _ cfg' h]
    simp_all [sysChecksPass]

/-- Master lemma: when the constructor returns (does not `exit`), the final
`initialized` flag is the initial one or-ed with the outcome of the full
validation chain — so `initialized` becomes `true` exactly when every check
passes, and an early error `return` leaves it untouched. -/
theorem frontendRun_initialized (env : FrontendEnv) (cfg0 cfg' : Config)
    (h : frontendRun env cfg0 = some cfg') :
    cfg'.initialized = (cfg0.initialized || frontendChecksPass env cfg0) := by
  simp only [frontendRun] at h
  unfold frontendChecksPass
  split at h
  next h1 =>
    obtain rfl := Option.some.inj h
    simp [h1]
  next h1 =>
    split at h
    next h2 => exact absurd h (by simp)
    next h2 =>
      split at h
      next h3 =>
        obtain rfl := Option.some.inj h
        simp [h1, h3]
      next h3 =>
        split at h
        next _x heq =>
          obtain rfl := Option.some.inj h
          simp [h1, h3, heq]
        next _x toml heq =>
          split at h
          next h4 =>
            obtain rfl := Option.some.inj h
            simp [h1, h3, heq, h4]
          next h4 =>
            split at h
            next h5 =>
              obtain rfl := Option.some.inj h
              simp [h1, h3, heq, h4, h5]
            next h5 =>
              split at h
              next h6 =>
                obtain rfl := Option.some.inj h
                simp [h1, h3, heq, h4, h5, h6]
              next h6 =>
                split at h
                next h7 =>
                  obtain rfl := Option.some.inj h
                  simp [h1, h3, heq, h4, h5, h6, h7]
                next h7 =>
                  split at h
                  next _y hnt =>
                    obtain rfl := Option.some.inj h
                    simp [h1, h3, heq, h4, h5, h6, h7, hnt, numThreadsOk]
                  next _y hnt =>
                    rw [frontendSysIncludes_initialized _ _ _ _ h]
                    simp [h1, h3, heq, h4, h5, h6, h7, hnt, numThreadsOk]
                  next _y v hnt =>
                    split at h
                    next hv =>
                      obtain rfl := Option.some.inj h
                      have hok : numThreadsOk (NumThreadsField.integer v) = false := by
                        simp only [numThreadsOk, decide_eq_false_iff_not]
                        omega
                      simp [h1, h3, heq, h4, h5, h6, h7, hnt, hok]
                    next hv =>
                      rw [frontendSysIncludes_initialized _ _ _ _ h]
                      have hok : numThreadsOk (NumThreadsField.integer v) = true := by
                        simp only [numThreadsOk, decide_eq_true_eq]
                        omega
                      simp [h1, h3, heq, h4, h5, h6, h7, hnt, hok]

/-- The constructor's tail preserves `numThreads` and `gitRepoURL` and sets
the debug limit to the TOML value (or its default 0). -/
theorem frontendFinish_fields (env : FrontendEnv) (toml : TomlData)
    (cfg cfg' : Config) (h : frontendFinish env toml cfg = some cfg') :
    cfg'.numThreads = cfg.numThreads ∧
    cfg'.debugLimitNumIndexedFiles = toml.debugLimit.getD 0 ∧
    cfg'.gitRepoURL = cfg.gitRepoURL := by
  simp only [frontendFinish] at h
  obtain rfl := Option.some.inj h
  exact ⟨rfl, rfl, rfl⟩

/-- Field values after a successful system-include stage. -/
theorem frontendSysIncludes_fields (env : FrontendEnv) (toml : TomlData)
    (cfg cfg' : Config) (h : frontendSysIncludes env toml cfg = some cfg')
    (hi : cfg'.initialized = true) (hini : cfg.initialized = false) :
    cfg'.numThreads = cfg.numThreads ∧
    cfg'.debugLimitNumIndexedFiles = toml.debugLimit.getD 0 ∧
    cfg'.gitRepoURL = cfg.gitRepoURL := by
  simp only [frontendSysIncludes] at h
  split at h
  · split at h
    · obtain rfl := Option.some.inj h
      simp [hini] at hi
    · split at h
      · obtain rfl := Option.some.inj h
        simp [hini] at hi
      · split at h
        · obtain rfl := Option.some.inj h
          simp [hini] at hi
        · split at h
          · obtain rfl := Option.some.inj h
            simp [hini] at hi
          · obtain ⟨a, b, c⟩ := frontendFinish_fields _ _ _ _ h
            exact ⟨by simpa using a, b, by simpa using c⟩
  · obtain ⟨a, b, c⟩ := frontendFinish_fields _ _ _ _ h
    exact ⟨by simpa using a, b, by simpa using c⟩

/-- Field values of a successfully initialized configuration: `numThreads`
is 0 for an absent node and the checked value for an integer node, a
non-integer node never initializes, the debug limit is the TOML value or 0,
and `gitRepoURL` is the TOML value. -/
theorem frontendRun_success_fields (env : FrontendEnv) (cfg0 cfg' : Config)
    (toml : TomlData) (h0 : cfg0.initialized = false)
    (heq : env.tomlParse = some toml) (h : frontendRun env cfg0 = some cfg')
    (hi : cfg'.initialized = true) :
    (toml.numThreads = NumThreadsField.absent → cfg'.numThreads = 0) ∧
    (∀ v, toml.numThreads = NumThreadsField.integer v → cfg'.numThreads = v ∧ 0 ≤ v) ∧
    toml.numThreads ≠ NumThreadsField.notInteger ∧
    cfg'.debugLimitNumIndexedFiles = toml.debugLimit.getD 0 ∧
    cfg'.gitRepoURL = toml.gitRepoURL := by
  simp only [frontendRun] at h
  split at h
  next h1 =>
    obtain rfl := Option.some.inj h
    simp [h0] at hi
  next h1 =>
    split at h
    next h2 => exact absurd h (by simp)
    next h2 =>
      split at h
      next h3 =>
        obtain rfl := Option.some.inj h
        simp [h0] at hi
      next h3 =>
        split at h
        next _x heq2 =>
          rw [heq] at heq2
          simp at heq2
        next _x toml2 heq2 =>
          rw [heq] at heq2
          obtain rfl : toml2 = toml := (Option.some.inj heq2).symm
          split at h
          next h4 =>
            obtain rfl := Option.some.inj h
            simp [h0] at hi
          next h4 =>
            split at h
            next h5 =>
              obtain rfl := Option.some.inj h
              simp [h0] at hi
            next h5 =>
              split at h
              next h6 =>
                obtain rfl := Option.some.inj h
                simp [h0] at hi
              next h6 =>
                split at h
                next h7 =>
                  obtain rfl := Option.some.inj h
                  simp [h0] at hi
                next h7 =>
                  split at h
                  next _y hnt =>
                    obtain rfl := Option.some.inj h
                    simp [h0] at hi
                  next _y hnt =>
                    obtain ⟨a, b, c⟩ :=
                      frontendSysIncludes_fields _ _ _ _ h hi (by simpa using h0)
                    refine ⟨fun _ => by simpa using a, ?_, by simp [hnt], b,
                      by simpa using c⟩
                    intro v hv
                    rw [hnt] at hv
                    cases hv
                  next _y v hnt =>
                    split at h
                    next hv =>
                      obtain rfl := Option.some.inj h
                      simp [h0] at hi
                    next hv =>
                      obtain ⟨a, b, c⟩ :=
                        frontendSysIncludes_fields _ _ _ _ h hi (by simpa using h0)
                      refine ⟨fun hab => ?_, fun w hw => ?_, by simp [hnt], b,
                        by simpa using c⟩
                      · rw [hnt] at hab
                        cases hab
                      · rw [hnt] at hw
                        obtain rfl : w = v := (NumThreadsField.integer.inj hw).symm
                        exact ⟨by simpa using a, by omega⟩

/-- The validation chain with the TOML parse result substituted in. -/
theorem frontendChecksPass_eq_some (env : FrontendEnv) (cfg0 : Config)
    (toml : TomlData) (heq : env.tomlParse = some toml) :
    frontendChecksPass env cfg0 =
      (if env.cliParseOk = false then false
       else if env.hdocTomlExists = false then false
       else if env.compileCommandsIsFile toml.compileCommands = false then false
       else if toml.outputDir = none ∧ cfg0.binaryType = BinaryType.Full then false
       else if toml.projectName = "" then false
       else if toml.gitRepoURL ≠ "" ∧ lastCharIsSlash toml.gitRepoURL = false then false
       else if numThreadsOk toml.numThreads = false then false
       else sysChecksPass env toml) := by
  unfold frontendChecksPass
  rw [heq]

/-- A non-integer `num_threads` makes the validation chain fail. -/
theorem frontendChecksPass_false_of_notInteger (env : FrontendEnv) (cfg0 : Config)
    (toml : TomlData) (heq : env.tomlParse = some toml)
    (hnt : toml.numThreads = NumThreadsField.notInteger) :
    frontendChecksPass env cfg0 = false := by
  rw [frontendChecksPass_eq_some env cfg0 toml heq]
  split_ifs <;> simp_all [numThreadsOk]

/-- A negative `num_threads` makes the validation chain fail. -/
theorem frontendChecksPass_false_of_neg (env : FrontendEnv) (cfg0 : Config)
    (toml : TomlData) (v : Int) (heq : env.tomlParse = some toml)
    (hnt : toml.numThreads = NumThreadsField.integer v) (hv : v < 0) :
    frontendChecksPass env cfg0 = false := by
  rw [frontendChecksPass_eq_some env cfg0 toml heq]
  split_ifs <;> simp_all [numThreadsOk]

/-- A non-empty `git_repo_url` without a trailing slash makes the validation
chain fail. -/
theorem frontendChecksPass_false_of_git (env : FrontendEnv) (cfg0 : Config)
    (toml : TomlData) (heq : env.tomlParse = some toml)
    (hg1 : toml.gitRepoURL ≠ "") (hg2 : lastCharIsSlash toml.gitRepoURL = false) :
    frontendChecksPass env cfg0 = false := by
  rw [frontendChecksPass_eq_some env cfg0 toml heq]
  split_ifs <;> simp_all

/-- With an empty `git_repo_url` the git check is vacuous: the remaining
checks alone decide the outcome. -/
theorem frontendChecksPass_eq_other_of_empty_git (env : FrontendEnv) (cfg0 : Config)
    (toml : TomlData) (heq : env.tomlParse = some toml)
    (hg : toml.gitRepoURL = "") :
    frontendChecksPass env cfg0 = frontendOtherChecksPass env cfg0 := by
  rw [frontendChecksPass_eq_some env cfg0 toml heq]
  unfold frontendOtherChecksPass
  rw [heq]
  simp [hg]

end Hdoc

namespace Hdoc

/-- C1 (counterexample): merging two declaration-only observations of the
same identity key at different source locations gives a different final
`Entry` depending on the order — the first-seen tie-break of §4.3 keeps the
first location, so `[A, B]` and `[B, A]` disagree on `bestLocation`. -/
theorem merge_pair_comm_counterexample :
    lookupEntry (mergeObservation (mergeObservation [] cexObsDeclOne) cexObsDeclTwo)
        "foo()"
      ≠ lookupEntry (mergeObservation (mergeObservation [] cexObsDeclTwo) cexObsDeclOne)
          "foo()" := by
  decide

/-- C1 (amended): for every finite set of observations and every two
orderings of it, applying `mergeObservation` for each observation in either
order produces tables whose final `Entry` for each `IdentityKey` is
identical, provided the first-seen tie-break never has to choose between
differing values: any two observations of the same key with equal
definitional status share a source location, and with equal comment
preference rank carry equal comments. In particular, under the same
provisos, merging `[A, B]` yields the same table as merging `[B, A]`. -/
theorem merge_fold_comm_of_no_tie :
    (∀ l₁ l₂ : List SymbolObservation, l₁.Perm l₂ →
      (∀ A ∈ l₁, ∀ B ∈ l₁, A.identityKey = B.identityKey →
        (A.isDefinition = B.isDefinition → A.sourceLocation = B.sourceLocation) ∧
        (commentPriority A = commentPriority B →
          A.documentationComment = B.documentationComment)) →
      ∀ k, lookupEntry (l₁.foldl mergeObservation []) k
          = lookupEntry (l₂.foldl mergeObservation []) k) ∧
    (∀ A B : SymbolObservation, A.identityKey = B.identityKey →
      (A.isDefinition = B.isDefinition → A.sourceLocation = B.sourceLocation) →
      (commentPriority A = commentPriority B →
        A.documentationComment = B.documentationComment) →
      mergeObservation (mergeObservation [] A) B
        = mergeObservation (mergeObservation [] B) A) := by
  constructor
  · intro l₁ l₂ hp hnt k
    rw [lookupEntry_foldl_mergeObservation, lookupEntry_foldl_mergeObservation]
    refine List.Perm.foldl_eq' (hp.filter _) ?_ _
    intro x hx y hy z
    obtain ⟨hxl, hxk⟩ := List.mem_filter.mp hx
    obtain ⟨hyl, hyk⟩ := List.mem_filter.mp hy
    have hkeq : x.identityKey = y.identityKey := by
      have h1 : x.identityKey = k := by simpa using hxk
      have h2 : y.identityKey = k := by simpa using hyk
      rw [h1, h2]
    obtain ⟨hl, hc⟩ := hnt x hxl y hyl hkeq
    exact mergeEntryStep_comm z x y hkeq hl hc
  · intro A B hk hloc hcmt
    have h := updateEntry_newEntry_comm_full A B hk hloc hcmt
    simp [mergeObservation, hk, h]

/-- C1 witness: a three-observation set (a definition and a declaration of
`foo()` plus an observation of a second entity) merges to the same `foo()`
entry under two different orderings, and the pair merges to the same table
in either order. -/
theorem merge_fold_comm_of_no_tie_witness :
    ([c1DefObs, c1DeclObs, c1OtherObs] : List SymbolObservation).Perm
      [c1OtherObs, c1DeclObs, c1DefObs] ∧
    lookupEntry ([c1DefObs, c1DeclObs, c1OtherObs].foldl mergeObservation []) "foo()"
      = lookupEntry ([c1OtherObs, c1DeclObs, c1DefObs].foldl mergeObservation [])
          "foo()" ∧
    mergeObservation (mergeObservation [] c1DefObs) c1DeclObs
      = mergeObservation (mergeObservation [] c1DeclObs) c1DefObs :=
  ⟨by decide,
   merge_fold_comm_of_no_tie.1 [c1DefObs, c1DeclObs, c1OtherObs]
     [c1OtherObs, c1DeclObs, c1DefObs] (by decide) (by decide) "foo()",
   merge_fold_comm_of_no_tie.2 c1DefObs c1DeclObs (by decide) (by decide) (by decide)⟩

/-- C2: `mergeObservation` is idempotent — applying the same observation
twice produces the same table (hence the same `Entry`) as applying it
once. -/
theorem mergeObservation_idem (t : SymbolTable) (o : SymbolObservation) :
    mergeObservation (mergeObservation t o) o = mergeObservation t o := by
  induction t with
  | nil => simp [mergeObservation, updateEntry_newEntry_self]
  | cons p rest ih =>
    obtain ⟨k0, e⟩ := p
    by_cases hk : k0 = o.identityKey
    · simp [mergeObservation, hk, updateEntry_idem]
    · simp [mergeObservation, hk, ih]

/-- C3: merging a definition observation and a declaration-only observation
of the same key, in either order, leaves `bestLocation` at the definition's
location; and an entry that has seen a definition never has its
`bestLocation` replaced by a declaration-only observation. -/
theorem merge_definition_precedence (A B : SymbolObservation)
    (hk : A.identityKey = B.identityKey)
    (hA : A.isDefinition = true) (hB : B.isDefinition = false) :
    ((lookupEntry (mergeObservation (mergeObservation [] A) B) A.identityKey).map
        Entry.bestLocation = some A.sourceLocation ∧
     (lookupEntry (mergeObservation (mergeObservation [] B) A) A.identityKey).map
        Entry.bestLocation = some A.sourceLocation) ∧
    (∀ (e : Entry) (o : SymbolObservation), e.hasDefinition = true →
      o.isDefinition = false → (updateEntry e o).bestLocation = e.bestLocation) := by
  constructor
  · constructor <;>
      simp [mergeObservation, lookupEntry, updateEntry, newEntry, hk, hA, hB]
  · intro e o he ho
    simp [updateEntry, he, ho]

/-- C3 witness: the definition of `bar()` wins over its declaration in both
merge orders. -/
theorem merge_definition_precedence_witness :
    (c3DefObs.identityKey = c3DeclObs.identityKey ∧ c3DefObs.isDefinition = true ∧
      c3DeclObs.isDefinition = false) ∧
    ((lookupEntry (mergeObservation (mergeObservation [] c3DefObs) c3DeclObs)
        c3DefObs.identityKey).map Entry.bestLocation = some c3DefObs.sourceLocation ∧
     (lookupEntry (mergeObservation (mergeObservation [] c3DeclObs) c3DefObs)
        c3DefObs.identityKey).map Entry.bestLocation = some c3DefObs.sourceLocation) :=
  ⟨⟨rfl, rfl, rfl⟩, (merge_definition_precedence c3DefObs c3DeclObs rfl rfl rfl).1⟩

/-- C4: for two observations of the same key, a non-empty comment wins over
an empty one in either merge order; and between two non-empty comments the
one attached to a definition is kept, in either order. -/
theorem merge_comment_precedence :
    (∀ A B : SymbolObservation, A.identityKey = B.identityKey →
      A.documentationComment = "" → B.documentationComment ≠ "" →
      (lookupEntry (mergeObservation (mergeObservation [] A) B) A.identityKey).map
          Entry.documentationComment = some B.documentationComment ∧
      (lookupEntry (mergeObservation (mergeObservation [] B) A) A.identityKey).map
          Entry.documentationComment = some B.documentationComment) ∧
    (∀ A B : SymbolObservation, A.identityKey = B.identityKey →
      A.documentationComment ≠ "" → B.documentationComment ≠ "" →
      A.isDefinition = true → B.isDefinition = false →
      (lookupEntry (mergeObservation (mergeObservation [] A) B) A.identityKey).map
          Entry.documentationComment = some A.documentationComment ∧
      (lookupEntry (mergeObservation (mergeObservation [] B) A) A.identityKey).map
          Entry.documentationComment = some A.documentationComment) := by
  constructor
  · intro A B hk h1 h2
    constructor <;>
      simp [mergeObservation, lookupEntry, updateEntry, newEntry, hk, h1, h2]
  · intro A B hk h1 h2 hA hB
    constructor <;>
      simp [mergeObservation, lookupEntry, updateEntry, newEntry, hk, h1, h2, hA, hB]

/-- C4 witness: the non-empty comment on `baz()` and the definition-attached
comment on `qux()` survive both merge orders. -/
theorem merge_comment_precedence_witness :
    ((lookupEntry (mergeObservation (mergeObservation [] c4EmptyObs) c4DocObs)
        c4EmptyObs.identityKey).map Entry.documentationComment
      = some c4DocObs.documentationComment ∧
     (lookupEntry (mergeObservation (mergeObservation [] c4DocObs) c4EmptyObs)
        c4EmptyObs.identityKey).map Entry.documentationComment
      = some c4DocObs.documentationComment) ∧
    ((lookupEntry (mergeObservation (mergeObservation [] c4DefDocObs) c4DeclDocObs)
        c4DefDocObs.identityKey).map Entry.documentationComment
      = some c4DefDocObs.documentationComment ∧
     (lookupEntry (mergeObservation (mergeObservation [] c4DeclDocObs) c4DefDocObs)
        c4DefDocObs.identityKey).map Entry.documentationComment
      = some c4DefDocObs.documentationComment) :=
  ⟨merge_comment_precedence.1 c4EmptyObs c4DocObs rfl rfl (by decide),
   merge_comment_precedence.2 c4DefDocObs c4DeclDocObs rfl (by decide) (by decide)
     rfl rfl⟩

/-- C5: a table with unique keys keeps unique keys under a merge (at most
one `Entry` per `IdentityKey`), an `Entry` for the observed key exists as
soon as the observation is merged, no merge ever removes a key (the key set
grows monotonically), and any sequence of merges from the empty table keeps
keys unique. -/
theorem merge_table_invariants :
    (∀ (t : SymbolTable) (o : SymbolObservation),
      ((tableKeys t).Nodup → (tableKeys (mergeObservation t o)).Nodup) ∧
      (lookupEntry (mergeObservation t o) o.identityKey).isSome = true ∧
      ∀ k, k ∈ tableKeys t → k ∈ tableKeys (mergeObservation t o)) ∧
    ∀ l : List SymbolObservation, (tableKeys (l.foldl mergeObservation [])).Nodup := by
  constructor
  · intro t o
    refine ⟨nodup_tableKeys_mergeObservation t o, ?_, ?_⟩
    · rw [lookupEntry_isSome_iff, tableKeys_mergeObservation]
      by_cases hm : o.identityKey ∈ tableKeys t <;> simp [hm]
    · intro k hk
      exact mem_tableKeys_mergeObservation t o k hk
  · intro l
    exact nodup_tableKeys_foldl_merge l [] (by simp [tableKeys_nil])

/-- C5 witness: merging a concrete observation into the empty table keeps
the keys unique and makes its entry present. -/
theorem merge_table_invariants_witness :
    (tableKeys ([] : SymbolTable)).Nodup ∧
    (tableKeys (mergeObservation [] c5Obs)).Nodup ∧
    (lookupEntry (mergeObservation [] c5Obs) c5Obs.identityKey).isSome = true :=
  ⟨by decide, (merge_table_invariants.1 [] c5Obs).1 (by decide),
   (merge_table_invariants.1 [] c5Obs).2.1⟩

/-- C6: the run reports overall failure exactly when every work item fails;
every observation of every successful work item is keyed in the final
table even when other items fail; and a failed work item is skipped —
it leaves the table unchanged (so there is nothing to retry). -/
theorem run_partial_failure (source : ObservationSource) (items : List WorkItem) :
    ((runIndex source items).2 = true ↔ ∀ i ∈ items, source i = none) ∧
    (∀ i ∈ items, ∀ l, source i = some l →
      ∀ o ∈ l, o.identityKey ∈ tableKeys (runIndex source items).1) ∧
    (∀ (t : SymbolTable) (i : WorkItem), source i = none →
      runWorkItem source t i = t) := by
  refine ⟨?_, ?_, ?_⟩
  · simp [runIndex, List.all_eq_true, Option.isNone_iff_eq_none]
  · intro i hi l hl o ho
    exact retention_foldl_runWorkItem source items [] i hi l hl o ho
  · intro t i h
    simp [runWorkItem, h]

/-- C6 witness: in a three-item run where `b.cpp` fails, the observation
from `a.cpp` is retained and the run is not a total failure. -/
theorem run_partial_failure_witness :
    (c6Item1 ∈ c6Items ∧ c6Source c6Item1 = some [c6Obs] ∧ c6Obs ∈ [c6Obs]) ∧
    c6Obs.identityKey ∈ tableKeys (runIndex c6Source c6Items).1 ∧
    (runIndex c6Source c6Items).2 = false :=
  ⟨⟨by decide, by decide, by decide⟩,
   (run_partial_failure c6Source c6Items).2.1 c6Item1 (by decide) [c6Obs] (by decide)
     c6Obs (by decide),
   by decide⟩

/-- C7: the worker count is validated at configuration load: an absent
`num_threads` yields 0 (all available parallelism), a non-integer or
negative value is a fatal configuration error (the constructor returns
early uninitialized, before any indexing work), and a successful load
stores the non-negative configured value. -/
theorem frontend_numThreads_spec (env : FrontendEnv) (cfg0 cfg' : Config)
    (toml : TomlData) (h0 : cfg0.initialized = false)
    (heq : env.tomlParse = some toml) (h : frontendRun env cfg0 = some cfg') :
    (toml.numThreads = NumThreadsField.notInteger → cfg'.initialized = false) ∧
    (∀ v, toml.numThreads = NumThreadsField.integer v → v < 0 →
      cfg'.initialized = false) ∧
    (cfg'.initialized = true → toml.numThreads = NumThreadsField.absent →
      cfg'.numThreads = 0) ∧
    (cfg'.initialized = true → ∀ v, toml.numThreads = NumThreadsField.integer v →
      cfg'.numThreads = v ∧ 0 ≤ v) := by
  refine ⟨?_, ?_, ?_, ?_⟩
  · intro hnt
    rw [frontendRun_initialized env cfg0 cfg' h, h0, Bool.false_or]
    exact frontendChecksPass_false_of_notInteger env cfg0 toml heq hnt
  · intro v hnt hv
    rw [frontendRun_initialized env cfg0 cfg' h, h0, Bool.false_or]
    exact frontendChecksPass_false_of_neg env cfg0 toml v heq hnt hv
  · intro hi hnt
    exact (frontendRun_success_fields env cfg0 cfg' toml h0 heq h hi).1 hnt
  · intro hi v hnt
    exact (frontendRun_success_fields env cfg0 cfg' toml h0 heq h hi).2.1 v hnt

/-- C7 witness: with `num_threads = 4` the constructor initializes and
stores 4. -/
theorem frontend_numThreads_spec_witness :
    c7Res.initialized = true ∧ c7Res.numThreads = 4 ∧ (0 : Int) ≤ 4 :=
  ⟨rfl,
   ((frontend_numThreads_spec c7Env sampleConfig c7Res c7Toml rfl rfl rfl).2.2.2
     rfl 4 rfl).1,
   ((frontend_numThreads_spec c7Env sampleConfig c7Res c7Toml rfl rfl rfl).2.2.2
     rfl 4 rfl).2⟩

/-- C8: an absent `debug.limit_num_indexed_files` defaults to 0 in a
successfully loaded configuration; a configured positive limit truncates
the compilation plan to at most that many work items; and with limit 0
(unlimited) every existing, non-ignored manifest entry appears (argument
list augmented) in the plan. -/
theorem debug_limit_spec :
    (∀ (env : FrontendEnv) (cfg0 cfg' : Config) (toml : TomlData),
      cfg0.initialized = false → env.tomlParse = some toml →
      frontendRun env cfg0 = some cfg' → cfg'.initialized = true →
      cfg'.debugLimitNumIndexedFiles = toml.debugLimit.getD 0) ∧
    (∀ (manifest : List WorkItem) (fileOk : String → Bool)
      (iP iA : List String) (limit : Nat), 0 < limit →
      (buildCompilationPlan manifest fileOk iP iA limit).length ≤ limit) ∧
    (∀ (manifest : List WorkItem) (fileOk : String → Bool) (iP iA : List String),
      ∀ e ∈ manifest, fileOk e.path = true →
      (iP.any fun p => containsStr e.path p) = false →
      ({ e with args := e.args ++ iA } : WorkItem) ∈
        buildCompilationPlan manifest fileOk iP iA 0) := by
  refine ⟨?_, ?_, ?_⟩
  · intro env cfg0 cfg' toml h0 heq h hi
    exact (frontendRun_success_fields env cfg0 cfg' toml h0 heq h hi).2.2.2.1
  · intro manifest fileOk iP iA limit hl
    simp only [buildCompilationPlan]
    rw [if_neg (by omega)]
    exact le_trans (List.length_take_le _ _) (le_refl _)
  · intro manifest fileOk iP iA e he hf hi
    simp only [buildCompilationPlan, if_pos]
    rw [List.mem_map]
    refine ⟨e, ?_, rfl⟩
    rw [List.mem_filter]
    simp [he, hf, hi]

/-- C8 witness: a three-entry manifest with limit 2 yields at most two work
items. -/
theorem debug_limit_spec_witness :
    0 < 2 ∧
    (buildCompilationPlan c8Manifest (fun _ => true) [] [] 2).length ≤ 2 :=
  ⟨by decide, debug_limit_spec.2.1 c8Manifest (fun _ => true) [] [] 2 (by decide)⟩

/-- C9: when the constructor returns on a fresh configuration,
`initialized` is `true` exactly when every validation check passed — every
error path returns early with `initialized` still `false`. -/
theorem frontend_initialized_iff_checks (env : FrontendEnv) (cfg0 cfg' : Config)
    (h0 : cfg0.initialized = false) (h : frontendRun env cfg0 = some cfg') :
    cfg'.initialized = true ↔ frontendChecksPass env cfg0 = true := by
  rw [frontendRun_initialized env cfg0 cfg' h, h0, Bool.false_or]

/-- C9 witness: on a fully valid environment the equivalence holds and both
sides are `true`. -/
theorem frontend_initialized_iff_checks_witness :
    sampleConfig.initialized = false ∧
    frontendChecksPass (sampleEnv sampleToml) sampleConfig = true ∧
    (c9Res.initialized = true ↔
      frontendChecksPass (sampleEnv sampleToml) sampleConfig = true) :=
  ⟨rfl, by decide,
   frontend_initialized_iff_checks (sampleEnv sampleToml) sampleConfig c9Res rfl rfl⟩

/-- C10: a non-empty `git_repo_url` whose last character is not `'/'` is a
fatal configuration error — the constructor returns early and the
configuration stays uninitialized; with an empty `git_repo_url` the git
check is vacuous and the remaining checks alone decide initialization. -/
theorem frontend_gitRepoURL_check (env : FrontendEnv) (cfg0 cfg' : Config)
    (toml : TomlData) (h0 : cfg0.initialized = false)
    (heq : env.tomlParse = some toml) (h : frontendRun env cfg0 = some cfg') :
    (toml.gitRepoURL ≠ "" → lastCharIsSlash toml.gitRepoURL = false →
      cfg'.initialized = false) ∧
    (toml.gitRepoURL = "" →
      (cfg'.initialized = true ↔ frontendOtherChecksPass env cfg0 = true)) := by
  constructor
  · intro hg1 hg2
    rw [frontendRun_initialized env cfg0 cfg' h, h0, Bool.false_or]
    exact frontendChecksPass_false_of_git env cfg0 toml heq hg1 hg2
  · intro hg
    rw [frontendRun_initialized env cfg0 cfg' h, h0, Bool.false_or,
      frontendChecksPass_eq_other_of_empty_git env cfg0 toml heq hg]

/-- C10 witness: a git URL without a trailing slash leaves the
configuration uninitialized. -/
theorem frontend_gitRepoURL_check_witness :
    (c10Toml.gitRepoURL ≠ "" ∧ lastCharIsSlash c10Toml.gitRepoURL = false) ∧
    c10Res.initialized = false :=
  ⟨⟨by decide, by decide⟩,
   (frontend_gitRepoURL_check c10Env sampleConfig c10Res c10Toml rfl rfl rfl).1
     (by decide) (by decide)⟩

end Hdoc
